import Mathlib

/-!
Verification of the container-launcher program (src/main.rs) against its
natural-language specification.  The Rust program is shallowly embedded:
pure computations (image-reference parsing, manifest selection, the
filesystem effect of layer extraction) become Lean functions, and the
effectful pipeline of `main` becomes a function from a `World` of oracle
results (network responses, filesystem call results, the child process
outcome) to an ordered trace of events plus a final result.
-/

/-- Rust `str::split(sep)` iterator semantics, collected into a list:
splitting at every occurrence of `sep`; the empty string splits to one
empty piece; `n` separators yield `n+1` pieces. -/
def splitOnChar (sep : Char) : List Char → List (List Char)
  | [] => [[]]
  | c :: cs =>
    if c = sep then [] :: splitOnChar sep cs
    else
      match splitOnChar sep cs with
      | [] => [[c]]
      | r :: rs => (c :: r) :: rs

/-- Embedding of main.rs lines 162-164:
`let mut split = image_name.split(':');
 let image = split.next().unwrap();
 let tag = split.next().unwrap_or("latest");`
The first `next()` is the first piece (always present), the second is the
second piece, defaulting to "latest". -/
def parseImageRef (imageName : String) : String × String :=
  (String.mk ((splitOnChar ':' imageName.data).headD []),
   String.mk (((splitOnChar ':' imageName.data).drop 1).headD "latest".data))

/-- Platform record of the manifest-list JSON (main.rs lines 26-29). -/
structure Platform where
  architecture : String
deriving DecidableEq, Repr

/-- One entry of the manifest list (main.rs lines 20-24). -/
structure DistributionManifest where
  digest : String
  platform : Platform
deriving DecidableEq, Repr

/-- The manifest-list response body (main.rs lines 15-18). -/
structure DistributionManifestResponse where
  manifests : List DistributionManifest
deriving DecidableEq, Repr

/-- One layer record of the image manifest (main.rs lines 36-39). -/
structure Layer where
  digest : String
deriving DecidableEq, Repr

/-- Embedding of the selection logic of `get_image_digest` (main.rs lines
94-101): find the first manifest whose platform architecture equals the
requested one, return its digest, or the fixed context error when none
matches.  The network fetch and JSON parse that produce `resp` are
modelled by the caller's oracle. -/
def get_image_digest (resp : DistributionManifestResponse)
    (platform_architecture : String) : Except String String :=
  match resp.manifests.find?
      (fun m => m.platform.architecture == platform_architecture) with
  | some m => Except.ok m.digest
  | none => Except.error "No manifest found for arm64"

/-- A tar entry: a path and the file content it writes. -/
structure TarEntry where
  path : String
  content : String
deriving DecidableEq, Repr

/-- Writing one tar entry onto the workspace: the entry's path now maps to
the entry's content, every other path is unchanged. -/
def unpackEntry (ws : String → Option String) (e : TarEntry) :
    String → Option String :=
  fun p => if p = e.path then some e.content else ws p

/-- Embedding of `tar::Archive::unpack` (main.rs line 147): entries are
written in archive order onto the workspace, later entries overwriting
earlier ones at the same path. -/
def unpack (ws : String → Option String) (entries : List TarEntry) :
    String → Option String :=
  entries.foldl unpackEntry ws

/-- The last content written at path `p` by a list of entries, if any:
entries nearer the tail take precedence. -/
def lastWrite : List TarEntry → String → Option String
  | [], _ => none
  | e :: es, p =>
    match lastWrite es p with
    | some c => some c
    | none => if e.path = p then some e.content else none

/-- The workspace as seeded by `create_temp_dir` (main.rs lines 41-51):
an empty regular file exists at dev/null, nothing else. -/
def devNullWs : String → Option String :=
  fun p => if p = "dev/null" then some "" else none

/-- The child-process configuration built by the `std::process::Command`
builder chain (main.rs lines 187-193).  `env` is the environment the
child will see.  Standard streams are all configured as inherited (a
fixed fact of the source, lines 190-192), so `Command::output()` captures
nothing: the captured stdout/stderr byte vectors are always empty and
`str::from_utf8` on them always succeeds. -/
structure Command where
  program : String
  cwd : String
  args : List String
  env : List (String × String)
deriving DecidableEq, Repr

/-- `Command::new(program)`: the child would inherit the launcher's
environment by default. -/
def commandNew (program : String) (launcherEnv : List (String × String)) :
    Command :=
  { program := program, cwd := ".", args := [], env := launcherEnv }

/-- `.current_dir(d)` (main.rs line 188). -/
def currentDirSet (c : Command) (d : String) : Command :=
  { c with cwd := d }

/-- `.args(as)` (main.rs line 189). -/
def argsAdd (c : Command) (as : List String) : Command :=
  { c with args := c.args ++ as }

/-- `.env_clear()` (main.rs line 193): the child environment becomes
empty, whatever it was. -/
def envClear (c : Command) : Command :=
  { c with env := [] }

/-- The full builder chain of main.rs lines 187-193. -/
def builtCommand (program : String) (commandArgs : List String)
    (launcherEnv : List (String × String)) : Command :=
  envClear (argsAdd (currentDirSet (commandNew program launcherEnv) "/") commandArgs)

/-- Observable steps of one run of `main`, in execution order. -/
inductive Event where
  | createWorkspace
  | mkdirDev
  | createDevNull
  | authRequest
  | manifestListRequest
  | manifestRequest
  | blobRequest (digest : String)
  | extractLayer (digest : String)
  | chroot
  | setCurrentDir
  | unshare
  | execCommand (c : Command)
deriving DecidableEq, Repr

/-- Events of the isolation boundary or the child execution. -/
def Event.isIsoOrExec : Event → Bool
  | .chroot => true
  | .setCurrentDir => true
  | .unshare => true
  | .execCommand _ => true
  | _ => false

/-- Registry network requests. -/
def Event.isNetwork : Event → Bool
  | .authRequest => true
  | .manifestListRequest => true
  | .manifestRequest => true
  | .blobRequest _ => true
  | _ => false

/-- Layer extraction steps. -/
def Event.isExtract : Event → Bool
  | .extractLayer _ => true
  | _ => false

/-- How one run of the launcher process terminates. -/
inductive MainResult where
  | panicked (msg : String)
  | errExit (msg : String)
  | exit (code : Int)
deriving DecidableEq, Repr

/-- The process exit code each termination produces: a Rust panic exits
with 101, `main` returning an anyhow `Err` exits with 1 (printing the
error), and `exit c` is an explicit or implicit exit code. -/
def MainResult.code : MainResult → Int
  | .panicked _ => 101
  | .errExit _ => 1
  | .exit c => c

/-- Embedding of main.rs lines 197-206.  `status` is
`output.status.code()`; on Unix `output.status.success()` holds exactly
when the child exited normally with code 0, i.e. `status = some 0`.  In
the success branch the source runs `str::from_utf8` on the captured
stdout/stderr and prints them; both captures are empty (the streams are
configured inherited, see `Command`), so the conversion always succeeds,
the prints are no-ops and `main` returns `Ok(())`, exiting 0.  Otherwise
the source calls `std::process::exit(status.unwrap_or(1))`. -/
def handleOutput (status : Option Int) : MainResult :=
  if status = some 0 then
    MainResult.exit 0
  else
    MainResult.exit (status.getD 1)

/-- Oracle results for every external effect one run of `main` performs:
command-line arguments, the launcher environment, filesystem call
results, registry responses (as already-parsed bodies or transport/parse
errors), isolation call results and the child-process outcome. -/
structure World where
  /-- `std::env::args().collect()` (index 0 is the program name). -/
  args : List String
  /-- the launcher's own process environment -/
  env : List (String × String)
  /-- `tempfile::tempdir()` result: the fresh directory path -/
  tempDir : Except String String
  /-- `create_dir_all(dev)` result -/
  mkdirDevOk : Except String Unit
  /-- `File::create(dev/null)` result -/
  devNullOk : Except String Unit
  /-- token endpoint: image name to bearer token (or error) -/
  authToken : String → Except String String
  /-- manifest-list endpoint: image, tag, token to parsed manifest list -/
  manifestList : String → String → String →
    Except String (List DistributionManifest)
  /-- image-manifest endpoint: image, digest, token to parsed layer list -/
  imageManifest : String → String → String → Except String (List Layer)
  /-- blob endpoint plus gzip and tar decoding: digest to tar entries -/
  blobEntries : String → Except String (List TarEntry)
  /-- `fs::chroot` result -/
  chrootOk : Except String Unit
  /-- `env::set_current_dir` result -/
  setCwdOk : Except String Unit
  /-- return value of `libc::unshare(CLONE_NEWPID)`; the source discards
  it (main.rs line 184), so no other field of the run depends on it -/
  unshareRet : Int
  /-- `Command::output()` result: the child exit status `status.code()`,
  or the error when the process could not be run -/
  runOutput : Command → Except String (Option Int)

/-- Embedding of `download_layers` (main.rs lines 126-151): for each
layer in manifest order, fetch and decode its blob, then unpack it onto
the workspace; any failure aborts immediately.  Returns the event trace,
the final workspace and the overall result. -/
def download_layers (blob : String → Except String (List TarEntry))
    (ws : String → Option String) :
    List Layer → List Event × (String → Option String) × Except String Unit
  | [] => ([], ws, Except.ok ())
  | l :: ls =>
    match blob l.digest with
    | Except.error e => ([Event.blobRequest l.digest], ws, Except.error e)
    | Except.ok entries =>
      let rest := download_layers blob (unpack ws entries) ls
      (Event.blobRequest l.digest :: Event.extractLayer l.digest :: rest.1,
       rest.2)

/-- Embedding of `Command::output()` and its `?` (main.rs lines 194-195),
given the oracle result for the spawned child: on a spawn error `main`
aborts with the context message naming the command; on success the child
ran and lines 197-206 decide the exit.  The `unshare` call of line 184
has already happened on both branches. -/
def outputStep (w : World) (command : String) (commandArgs : List String) :
    Except String (Option Int) → List Event × MainResult
  | Except.error _e =>
    ([Event.chroot, Event.setCurrentDir, Event.unshare],
     MainResult.errExit ("Tried to run " ++ command))
  | Except.ok status =>
    ([Event.chroot, Event.setCurrentDir, Event.unshare,
      Event.execCommand (builtCommand command commandArgs w.env)],
     handleOutput status)

/-- Embedding of `std::env::set_current_dir("/")?` (main.rs line 55) and
what follows it: on success, `libc::unshare(CLONE_NEWPID)` is invoked
with its return value `w.unshareRet` discarded (main.rs line 184) and the
child command is run. -/
def cwdStep (w : World) (command : String) (commandArgs : List String) :
    Except String Unit → List Event × MainResult
  | Except.error e =>
    ([Event.chroot, Event.setCurrentDir], MainResult.errExit e)
  | Except.ok _ =>
    outputStep w command commandArgs
      (w.runOutput (builtCommand command commandArgs w.env))

/-- Embedding of `fs::chroot(temp_dir_path)?` (main.rs line 54) and what
follows it inside `chroot_to_temp_dir` and `main`. -/
def chrootStep (w : World) (command : String) (commandArgs : List String) :
    Except String Unit → List Event × MainResult
  | Except.error e => ([Event.chroot], MainResult.errExit e)
  | Except.ok _ => cwdStep w command commandArgs w.setCwdOk

/-- After `download_layers` returned (main.rs line 178): its `?` aborts
on a download/extract error, otherwise the isolation boundary runs. -/
def extractDone (w : World) (command : String) (commandArgs : List String)
    (dlTrace : List Event) : Except String Unit → List Event × MainResult
  | Except.error e =>
    ([Event.authRequest, Event.manifestListRequest, Event.manifestRequest]
       ++ dlTrace, MainResult.errExit e)
  | Except.ok _ =>
    ([Event.authRequest, Event.manifestListRequest, Event.manifestRequest]
       ++ dlTrace ++ (chrootStep w command commandArgs w.chrootOk).1,
     (chrootStep w command commandArgs w.chrootOk).2)

/-- Embedding of `get_image_layers(...)?` (main.rs line 176) and what
follows: with the layer list in hand, `download_layers` runs over it in
order (main.rs line 178). -/
def manifestStep (w : World) (command : String) (commandArgs : List String) :
    Except String (List Layer) → List Event × MainResult
  | Except.error e =>
    ([Event.authRequest, Event.manifestListRequest, Event.manifestRequest],
     MainResult.errExit e)
  | Except.ok layers =>
    extractDone w command commandArgs
      (download_layers w.blobEntries devNullWs layers).1
      (download_layers w.blobEntries devNullWs layers).2.2

/-- Embedding of `get_image_digest(...)?` (main.rs line 173) resolving
the manifest list to a digest, and the image-manifest request that uses
it (main.rs lines 110-121). -/
def digestStep (w : World) (imageName command : String)
    (commandArgs : List String) (token : String) :
    Except String String → List Event × MainResult
  | Except.error e =>
    ([Event.authRequest, Event.manifestListRequest], MainResult.errExit e)
  | Except.ok digest =>
    manifestStep w command commandArgs
      (w.imageManifest (parseImageRef imageName).1 digest token)

/-- Embedding of the manifest-list request of `get_image_digest`
(main.rs lines 79-93): on a transport/parse error the run aborts, else
the parsed list is resolved against the fixed "arm64" architecture
(main.rs line 173). -/
def manifestListStep (w : World) (imageName command : String)
    (commandArgs : List String) (token : String) :
    Except String (List DistributionManifest) → List Event × MainResult
  | Except.error e =>
    ([Event.authRequest, Event.manifestListRequest], MainResult.errExit e)
  | Except.ok manifests =>
    digestStep w imageName command commandArgs token
      (get_image_digest ⟨manifests⟩ "arm64")

/-- Embedding of `get_auth_token(image)?` (main.rs line 167) and what
follows it. -/
def authStep (w : World) (imageName command : String)
    (commandArgs : List String) :
    Except String String → List Event × MainResult
  | Except.error e => ([Event.authRequest], MainResult.errExit e)
  | Except.ok token =>
    manifestListStep w imageName command commandArgs token
      (w.manifestList (parseImageRef imageName).1
        (parseImageRef imageName).2 token)

/-- Embedding of main.rs lines 162-206: parse the image reference, then
run the network pipeline, extraction, isolation and the command. -/
def afterWorkspace (w : World) (imageName command : String)
    (commandArgs : List String) : List Event × MainResult :=
  authStep w imageName command commandArgs
    (w.authToken (parseImageRef imageName).1)

/-- Embedding of `File::create(dev/null)?` (main.rs line 48) and what
follows workspace construction. -/
def devNullStep (w : World) (imageName command : String) :
    Except String Unit → List Event × MainResult
  | Except.error e =>
    ([Event.createWorkspace, Event.mkdirDev, Event.createDevNull],
     MainResult.errExit e)
  | Except.ok _ =>
    (Event.createWorkspace :: Event.mkdirDev :: Event.createDevNull ::
       (afterWorkspace w imageName command (w.args.drop 4)).1,
     (afterWorkspace w imageName command (w.args.drop 4)).2)

/-- Embedding of `create_dir_all(dev)?` (main.rs line 47) and what
follows it. -/
def mkdirStep (w : World) (imageName command : String) :
    Except String Unit → List Event × MainResult
  | Except.error e =>
    ([Event.createWorkspace, Event.mkdirDev], MainResult.errExit e)
  | Except.ok _ => devNullStep w imageName command w.devNullOk

/-- Embedding of `tempfile::tempdir()?` (main.rs line 43) and what
follows it. -/
def tempDirStep (w : World) (imageName command : String) :
    Except String String → List Event × MainResult
  | Except.error e => ([Event.createWorkspace], MainResult.errExit e)
  | Except.ok _ => mkdirStep w imageName command w.mkdirDevOk

/-- Embedding of main.rs lines 155-158: `&args[2]` and `&args[3]` panic
with an index-out-of-bounds when absent, before any other work; with
both present the pipeline starts at `create_temp_dir`. -/
def argsStep (w : World) :
    Option String → Option String → List Event × MainResult
  | some imageName, some command => tempDirStep w imageName command w.tempDir
  | _, _ => ([], MainResult.panicked "index out of bounds")

/-- Embedding of `main` (main.rs lines 153-207). -/
def runMain (w : World) : List Event × MainResult :=
  argsStep w (w.args.get? 2) (w.args.get? 3)

/-- A concrete two-layer registry for witness runs: layer L1 writes path
p with content one, layer L2 writes path p with content two. -/
def blobOkFun : String → Except String (List TarEntry) := fun d =>
  if d = "L1" then Except.ok [⟨"p", "one"⟩]
  else if d = "L2" then Except.ok [⟨"p", "two"⟩]
  else Except.error "no blob"

/-- A world in which every external step succeeds. -/
def wOk : World where
  args := ["prog", "run", "x:1", "cmd", "a1"]
  env := [("HOME", "h")]
  tempDir := Except.ok "tmp"
  mkdirDevOk := Except.ok ()
  devNullOk := Except.ok ()
  authToken := fun _ => Except.ok "tok"
  manifestList := fun _ _ _ => Except.ok [⟨"dg", ⟨"arm64"⟩⟩]
  imageManifest := fun _ _ _ => Except.ok [⟨"L1"⟩, ⟨"L2"⟩]
  blobEntries := blobOkFun
  chrootOk := Except.ok ()
  setCwdOk := Except.ok ()
  unshareRet := 0
  runOutput := fun _ => Except.ok (some 0)

/-- The all-success world except that `unshare(CLONE_NEWPID)` fails,
returning -1. -/
def wUnshareFail : World :=
  { wOk with unshareRet := -1 }

/-- The all-success world with a different launcher environment. -/
def wEnvB : World :=
  { wOk with env := [("PATH", "q"), ("SECRET", "s")] }

/-- A world invoked with only three command-line arguments. -/
def wShort : World :=
  { wOk with args := ["prog", "run", "img"] }

lemma splitOnChar_no_sep (sep : Char) (l : List Char) (h : sep ∉ l) :
    splitOnChar sep l = [l] := by
  induction l with
  | nil => rfl
  | cons c cs ih =>
    have hc : ¬c = sep := fun hc => h (hc ▸ List.mem_cons_self c cs)
    have hcs : sep ∉ cs := fun hm => h (List.mem_cons_of_mem c hm)
    simp [splitOnChar, hc, ih hcs]

lemma splitOnChar_append (sep : Char) (l r : List Char) (h : sep ∉ l) :
    splitOnChar sep (l ++ sep :: r) = l :: splitOnChar sep r := by
  induction l with
  | nil => simp [splitOnChar]
  | cons c cs ih =>
    have hc : ¬c = sep := fun hc => h (hc ▸ List.mem_cons_self c cs)
    have hcs : sep ∉ cs := fun hm => h (List.mem_cons_of_mem c hm)
    simp [splitOnChar, hc, ih hcs]

lemma unpack_eq_lastWrite (entries : List TarEntry) :
    ∀ (ws : String → Option String) (p : String),
      unpack ws entries p =
        match lastWrite entries p with
        | some c => some c
        | none => ws p := by
  induction entries with
  | nil => intro ws p; simp [unpack, lastWrite]
  | cons e es ih =>
    intro ws p
    have hstep : unpack ws (e :: es) p = unpack (unpackEntry ws e) es p := rfl
    rw [hstep, ih]
    by_cases hp : e.path = p
    · cases hlw : lastWrite es p with
      | some c => simp [lastWrite, hlw]
      | none => simp [lastWrite, hlw, hp, unpackEntry]
    · cases hlw : lastWrite es p with
      | some c => simp [lastWrite, hlw]
      | none =>
        have hp2 : ¬p = e.path := fun h => hp h.symm
        simp [lastWrite, hlw, hp, unpackEntry, hp2]

lemma find?_first {α : Type} (p : α → Bool) :
    ∀ (pre : List α) (m : α) (post : List α),
      (∀ x ∈ pre, p x = false) → p m = true →
      (pre ++ m :: post).find? p = some m := by
  intro pre
  induction pre with
  | nil => intro m post _ hm; simp [List.find?, hm]
  | cons a l ih =>
    intro m post hpre hm
    have ha : p a = false := hpre a (List.mem_cons_self a l)
    simp only [List.cons_append, List.find?, ha]
    exact ih m post (fun x hx => hpre x (List.mem_cons_of_mem a hx)) hm

lemma download_events (blob : String → Except String (List TarEntry))
    (ls : List Layer) :
    ∀ (ws : String → Option String) (e : Event),
      e ∈ (download_layers blob ws ls).1 → e.isIsoOrExec = false := by
  induction ls with
  | nil => intro ws e he; simp [download_layers] at he
  | cons l ls ih =>
    intro ws e he
    rw [download_layers] at he
    cases hb : blob l.digest with
    | error err =>
      rw [hb] at he
      simp only [List.mem_singleton] at he
      subst he; rfl
    | ok entries =>
      rw [hb] at he
      simp only [List.mem_cons] at he
      rcases he with rfl | rfl | he
      · rfl
      · rfl
      · exact ih (unpack ws entries) e he

lemma chrootStep_cases (w : World) (command : String) (cargs : List String) :
    (chrootStep w command cargs w.chrootOk).1 = [Event.chroot] ∨
    (chrootStep w command cargs w.chrootOk).1 =
      [Event.chroot, Event.setCurrentDir] ∨
    (chrootStep w command cargs w.chrootOk).1 =
      [Event.chroot, Event.setCurrentDir, Event.unshare] ∨
    ∃ c, (chrootStep w command cargs w.chrootOk).1 =
      [Event.chroot, Event.setCurrentDir, Event.unshare,
       Event.execCommand c] := by
  cases w.chrootOk with
  | error e => left; rfl
  | ok u =>
    simp only [chrootStep]
    cases w.setCwdOk with
    | error e => right; left; rfl
    | ok u2 =>
      simp only [cwdStep]
      cases w.runOutput (builtCommand command cargs w.env) with
      | error e => right; right; left; rfl
      | ok status =>
        right; right; right
        exact ⟨builtCommand command cargs w.env, rfl⟩

lemma chrootStep_exec (w : World) (command : String) (cargs : List String)
    (c : Command)
    (h : Event.execCommand c ∈ (chrootStep w command cargs w.chrootOk).1) :
    w.chrootOk = Except.ok () ∧ w.setCwdOk = Except.ok () ∧
    c = builtCommand command cargs w.env ∧
    ∃ status, w.runOutput c = Except.ok status ∧
      (chrootStep w command cargs w.chrootOk).2 = handleOutput status := by
  generalize hc : w.chrootOk = r1 at h ⊢
  cases r1 with
  | error e => simp [chrootStep] at h
  | ok u =>
    cases u
    simp only [chrootStep] at h ⊢
    generalize hs : w.setCwdOk = r2 at h ⊢
    cases r2 with
    | error e => simp [cwdStep] at h
    | ok u2 =>
      cases u2
      simp only [cwdStep] at h ⊢
      generalize hro : w.runOutput (builtCommand command cargs w.env) = r3
        at h ⊢
      cases r3 with
      | error e => simp [outputStep] at h
      | ok status =>
        simp only [outputStep] at h ⊢
        simp only [List.mem_cons, List.not_mem_nil, or_false] at h
        rcases h with h | h | h | h
        · exact Event.noConfusion h
        · exact Event.noConfusion h
        · exact Event.noConfusion h
        · have hc2 : c = builtCommand command cargs w.env := by injection h
          refine ⟨by trivial, by trivial, hc2, status, ?_, rfl⟩
          rw [hc2]; exact hro

lemma runMain_reach (w : World) :
    (∃ t0 cmd cargs,
        runMain w = (t0 ++ (chrootStep w cmd cargs w.chrootOk).1,
                     (chrootStep w cmd cargs w.chrootOk).2) ∧
        ∀ e ∈ t0, e.isIsoOrExec = false) ∨
    (∀ e ∈ (runMain w).1, e.isIsoOrExec = false) := by
  rw [runMain]
  cases h2 : w.args.get? 2 with
  | none => right; intro e he; simp [argsStep] at he
  | some imageName =>
    cases h3 : w.args.get? 3 with
    | none => right; intro e he; simp [argsStep] at he
    | some command =>
      simp only [argsStep]
      cases ht : w.tempDir with
      | error err =>
        right; intro e he; simp [tempDirStep] at he; subst he; rfl
      | ok _ =>
        simp only [tempDirStep]
        cases hm : w.mkdirDevOk with
        | error err =>
          right; intro e he; simp [mkdirStep] at he
          rcases he with rfl | rfl <;> rfl
        | ok _ =>
          simp only [mkdirStep]
          cases hd : w.devNullOk with
          | error err =>
            right; intro e he; simp [devNullStep] at he
            rcases he with rfl | rfl | rfl <;> rfl
          | ok _ =>
            simp only [devNullStep, afterWorkspace]
            cases ha : w.authToken (parseImageRef imageName).1 with
            | error err =>
              right; intro e he; simp [authStep] at he
              rcases he with rfl | rfl | rfl | rfl <;> rfl
            | ok token =>
              simp only [authStep]
              cases hml : w.manifestList (parseImageRef imageName).1
                  (parseImageRef imageName).2 token with
              | error err =>
                right; intro e he; simp [manifestListStep] at he
                rcases he with rfl | rfl | rfl | rfl | rfl <;> rfl
              | ok manifests =>
                simp only [manifestListStep]
                cases hgd : get_image_digest ⟨manifests⟩ "arm64" with
                | error err =>
                  right; intro e he; simp [digestStep] at he
                  rcases he with rfl | rfl | rfl | rfl | rfl <;> rfl
                | ok digest =>
                  simp only [digestStep]
                  cases him : w.imageManifest (parseImageRef imageName).1
                      digest token with
                  | error err =>
                    right; intro e he; simp [manifestStep] at he
                    rcases he with rfl | rfl | rfl | rfl | rfl | rfl <;> rfl
                  | ok layers =>
                    simp only [manifestStep]
                    cases hdl : (download_layers w.blobEntries devNullWs
                        layers).2.2 with
                    | error err =>
                      right; intro e he
                      simp [extractDone] at he
                      rcases he with rfl | rfl | rfl | rfl | rfl | rfl | he
                      · rfl
                      · rfl
                      · rfl
                      · rfl
                      · rfl
                      · rfl
                      · exact download_events w.blobEntries layers
                          devNullWs e he
                    | ok _ =>
                      left
                      refine ⟨Event.createWorkspace :: Event.mkdirDev ::
                        Event.createDevNull :: Event.authRequest ::
                        Event.manifestListRequest :: Event.manifestRequest ::
                        (download_layers w.blobEntries devNullWs layers).1,
                        command, w.args.drop 4, ?_, ?_⟩
                      · simp [extractDone]
                      · intro e he
                        simp only [List.mem_cons, List.mem_append] at he
                        rcases he with rfl | rfl | rfl | rfl | rfl | rfl | he
                        · rfl
                        · rfl
                        · rfl
                        · rfl
                        · rfl
                        · rfl
                        · exact download_events w.blobEntries layers
                            devNullWs e he

/-- C4: for every image reference with exactly one separator character,
the parsed name and tag equal the substrings before and after the
separator; for every reference with no separator, the name is the whole
string and the tag is the literal "latest". -/
theorem c4_parse_image_ref :
    (∀ (n t : List Char), ':' ∉ n → ':' ∉ t →
      parseImageRef (String.mk (n ++ ':' :: t)) =
        (String.mk n, String.mk t)) ∧
    (∀ s : List Char, ':' ∉ s →
      parseImageRef (String.mk s) = (String.mk s, "latest")) := by
  constructor
  · intro n t hn ht
    simp only [parseImageRef]
    rw [splitOnChar_append ':' n t hn, splitOnChar_no_sep ':' t ht]
    rfl
  · intro s hs
    simp only [parseImageRef]
    rw [splitOnChar_no_sep ':' s hs]
    rfl

/-- Witness for C4 at concrete references: one separator and none. -/
theorem c4_witness :
    parseImageRef (String.mk ("ub".data ++ ':' :: "22".data)) =
      (String.mk "ub".data, String.mk "22".data) ∧
    parseImageRef (String.mk "alpine".data) =
      (String.mk "alpine".data, "latest") :=
  ⟨c4_parse_image_ref.1 "ub".data "22".data (by decide) (by decide),
   c4_parse_image_ref.2 "alpine".data (by decide)⟩

/-- C10: for a reference with two or more separators, the name is the
part before the first separator, the tag is the part between the first
and the second, and everything after the second separator (here `r`,
which may itself contain further separators) is silently discarded;
`parseImageRef` is total, so no error is raised. -/
theorem c10_extra_separators :
    ∀ (n t r : List Char), ':' ∉ n → ':' ∉ t →
      parseImageRef (String.mk (n ++ ':' :: (t ++ ':' :: r))) =
        (String.mk n, String.mk t) := by
  intro n t r hn ht
  simp only [parseImageRef]
  rw [splitOnChar_append ':' n _ hn, splitOnChar_append ':' t r ht]
  rfl

/-- Witness for C10 at a concrete three-separator reference. -/
theorem c10_witness :
    parseImageRef (String.mk ("a".data ++ ':' :: ("b".data ++ ':' :: "c:d".data))) =
      (String.mk "a".data, String.mk "b".data) :=
  c10_extra_separators "a".data "b".data "c:d".data (by decide) (by decide)

/-- C9: with fewer than four entries in the argument vector, `main`
panics with an index-out-of-bounds while reading `args[2]` or `args[3]`,
before performing any other work (the event trace is empty); no
argument-count check exists on any path. -/
theorem c9_short_args_panic :
    ∀ w : World, w.args.length < 4 →
      runMain w = ([], MainResult.panicked "index out of bounds") := by
  intro w h
  have h3 : w.args.get? 3 = none := by
    rw [List.get?_eq_none]
    omega
  rw [runMain, h3]
  cases h2 : w.args.get? 2 with
  | none => rfl
  | some i => rfl

/-- Witness for C9 at a concrete three-argument invocation. -/
theorem c9_witness :
    wShort.args.length < 4 ∧
    runMain wShort = ([], MainResult.panicked "index out of bounds") :=
  ⟨by decide, c9_short_args_panic wShort (by decide)⟩

/-- C3: manifest resolution returns an error exactly when no entry of the
manifest index has an architecture string equal (case-sensitively) to the
requested one, and otherwise returns the digest of the first matching
entry, never defaulting to a non-matching entry. -/
theorem c3_first_match (resp : DistributionManifestResponse) (arch : String) :
    ((∃ e, get_image_digest resp arch = Except.error e) ↔
      ∀ m ∈ resp.manifests, m.platform.architecture ≠ arch) ∧
    (∀ (pre : List DistributionManifest) (m : DistributionManifest)
        (post : List DistributionManifest),
      resp.manifests = pre ++ m :: post →
      m.platform.architecture = arch →
      (∀ m2 ∈ pre, m2.platform.architecture ≠ arch) →
      get_image_digest resp arch = Except.ok m.digest) := by
  have hg : ∀ r : Option DistributionManifest,
      resp.manifests.find? (fun m => m.platform.architecture == arch) = r →
      get_image_digest resp arch =
        match r with
        | some m => Except.ok m.digest
        | none => Except.error "No manifest found for arm64" := by
    intro r hr
    rw [get_image_digest, hr]
  constructor
  · cases hf : resp.manifests.find?
        (fun m => m.platform.architecture == arch) with
    | none =>
      rw [hg none hf]
      constructor
      · intro _ m hm heq
        exact (List.find?_eq_none.mp hf m hm) (by simp [heq])
      · intro _
        exact ⟨"No manifest found for arm64", rfl⟩
    | some m =>
      rw [hg (some m) hf]
      constructor
      · rintro ⟨e, he⟩
        exact Except.noConfusion he
      · intro hall
        exact absurd (by simpa using List.find?_some hf)
          (hall m (List.mem_of_find?_eq_some hf))
  · intro pre m post hsplit hm hpre
    have hf : resp.manifests.find?
        (fun m => m.platform.architecture == arch) = some m := by
      rw [hsplit]
      exact find?_first _ pre m post
        (fun x hx => beq_eq_false_iff_ne.mpr (hpre x hx)) (by simp [hm])
    rw [hg (some m) hf]

/-- Witness for C3: the first arm64 entry is selected from a concrete
index, and a no-match index yields an error. -/
theorem c3_witness :
    get_image_digest
      ⟨[⟨"d1", ⟨"amd64"⟩⟩, ⟨"d2", ⟨"arm64"⟩⟩, ⟨"d3", ⟨"arm64"⟩⟩]⟩ "arm64" =
      Except.ok "d2" ∧
    ∃ e, get_image_digest ⟨[⟨"d1", ⟨"amd64"⟩⟩]⟩ "arm64" = Except.error e :=
  ⟨(c3_first_match ⟨[⟨"d1", ⟨"amd64"⟩⟩, ⟨"d2", ⟨"arm64"⟩⟩,
      ⟨"d3", ⟨"arm64"⟩⟩]⟩ "arm64").2
      [⟨"d1", ⟨"amd64"⟩⟩] ⟨"d2", ⟨"arm64"⟩⟩ [⟨"d3", ⟨"arm64"⟩⟩]
      rfl rfl (by decide),
   (c3_first_match ⟨[⟨"d1", ⟨"amd64"⟩⟩]⟩ "arm64").1.mpr (by decide)⟩

lemma unpack_some (es : List TarEntry) (p c : String)
    (h : lastWrite es p = some c) (ws : String → Option String) :
    unpack ws es p = some c := by
  rw [unpack_eq_lastWrite es ws p, h]

lemma unpack_none (es : List TarEntry) (p : String)
    (h : lastWrite es p = none) (ws : String → Option String) :
    unpack ws es p = ws p := by
  rw [unpack_eq_lastWrite es ws p, h]

lemma download_preserve (blob : String → Except String (List TarEntry))
    (p c : String) :
    ∀ (post : List Layer) (ws : String → Option String),
      ws p = some c →
      (∀ l ∈ post, ∀ es, blob l.digest = Except.ok es →
        lastWrite es p = none) →
      (download_layers blob ws post).2.1 p = some c := by
  intro post
  induction post with
  | nil => intro ws hws _; exact hws
  | cons l ls ih =>
    intro ws hws hpost
    cases hb : blob l.digest with
    | error e =>
      simp only [download_layers]
      rw [hb]
      exact hws
    | ok es =>
      simp only [download_layers]
      rw [hb]
      exact ih (unpack ws es)
        (by rw [unpack_none es p (hpost l (List.mem_cons_self l ls) es hb) ws]
            exact hws)
        (fun l2 hl2 => hpost l2 (List.mem_cons_of_mem l hl2))

/-- C5: extraction is a strictly sequential left fold over the layers in
manifest order, so the content at a path is decided by the last write in
that order.  Part one: within one layer, the last entry writing a path
wins.  Part two: across layers, if some layer writes path `p` (its last
entry at `p` having content `c2`) and no later layer writes `p`, the
final workspace holds `c2` at `p`, whatever any earlier layer wrote. -/
theorem c5_last_writer_wins :
    (∀ (ws : String → Option String) (es : List TarEntry) (p c : String),
      lastWrite es p = some c → unpack ws es p = some c) ∧
    (∀ (blob : String → Except String (List TarEntry))
        (ws : String → Option String) (pre : List Layer) (l2 : Layer)
        (post : List Layer) (p : String) (es2 : List TarEntry) (c2 : String),
      (∀ l ∈ pre, ∃ es, blob l.digest = Except.ok es) →
      blob l2.digest = Except.ok es2 →
      lastWrite es2 p = some c2 →
      (∀ l ∈ post, ∀ es, blob l.digest = Except.ok es →
        lastWrite es p = none) →
      (download_layers blob ws (pre ++ l2 :: post)).2.1 p = some c2) := by
  constructor
  · intro ws es p c h
    exact unpack_some es p c h ws
  · intro blob ws pre l2 post p es2 c2 hpre hl2 hes2 hpost
    revert ws hpre
    induction pre with
    | nil =>
      intro ws _
      simp only [List.nil_append, download_layers]
      rw [hl2]
      exact download_preserve blob p c2 post (unpack ws es2)
        (unpack_some es2 p c2 hes2 ws) hpost
    | cons l pre ih =>
      intro ws hpre
      obtain ⟨es, hes⟩ := hpre l (List.mem_cons_self l pre)
      simp only [List.cons_append, download_layers]
      rw [hes]
      exact ih (unpack ws es) (fun x hx => hpre x (List.mem_cons_of_mem l hx))

/-- Witness for C5: two concrete layers both write path p; the final
workspace holds the second layer's content at p. -/
theorem c5_witness :
    (download_layers blobOkFun devNullWs [⟨"L1"⟩, ⟨"L2"⟩]).2.1 "p" =
      some "two" :=
  c5_last_writer_wins.2 blobOkFun devNullWs [⟨"L1"⟩] ⟨"L2"⟩ [] "p"
    [⟨"p", "two"⟩] "two"
    (fun l hl => ⟨[⟨"p", "one"⟩], by
      rw [List.mem_singleton] at hl
      rw [hl]
      rfl⟩)
    rfl rfl
    (fun l hl => absurd hl (List.not_mem_nil l))

lemma runMain_prefix (w : World) :
    (runMain w).1 = [] ∨ (runMain w).1 = [Event.createWorkspace] ∨
    (runMain w).1 = [Event.createWorkspace, Event.mkdirDev] ∨
    ∃ t, (runMain w).1 =
      Event.createWorkspace :: Event.mkdirDev :: Event.createDevNull :: t := by
  rw [runMain]
  cases w.args.get? 2 with
  | none => left; rfl
  | some i =>
    cases w.args.get? 3 with
    | none => left; rfl
    | some c =>
      simp only [argsStep]
      cases w.tempDir with
      | error e => right; left; rfl
      | ok _ =>
        simp only [tempDirStep]
        cases w.mkdirDevOk with
        | error e => right; right; left; rfl
        | ok _ =>
          simp only [mkdirStep]
          cases w.devNullOk with
          | error e => right; right; right; exact ⟨[], rfl⟩
          | ok _ => right; right; right; exact ⟨_, rfl⟩

/-- C7: if any network request or any layer extraction happens in a run,
the trace starts with exactly the three workspace-construction steps
(tempdir creation, dev directory creation, dev/null file creation) — so
the workspace exists before any network activity and dev/null exists
before any extraction — and the workspace handed to extraction contains
the regular file dev/null (empty content). -/
theorem c7_workspace_first :
    ∀ w : World,
      (∃ e ∈ (runMain w).1, e.isNetwork = true ∨ e.isExtract = true) →
      (runMain w).1.take 3 =
        [Event.createWorkspace, Event.mkdirDev, Event.createDevNull] ∧
      devNullWs "dev/null" = some "" := by
  intro w h
  obtain ⟨e, he, hcls⟩ := h
  rcases runMain_prefix w with h0 | h0 | h0 | ⟨t, h0⟩
  · rw [h0] at he
    exact absurd he (List.not_mem_nil e)
  · rw [h0] at he
    rw [List.mem_singleton] at he
    subst he
    simp [Event.isNetwork, Event.isExtract] at hcls
  · rw [h0] at he
    simp only [List.mem_cons, List.not_mem_nil, or_false] at he
    rcases he with rfl | rfl <;>
      simp [Event.isNetwork, Event.isExtract] at hcls
  · rw [h0]
    exact ⟨rfl, rfl⟩

/-- Witness for C7 at the all-success world, where a network request
occurs. -/
theorem c7_witness :
    (runMain wOk).1.take 3 =
      [Event.createWorkspace, Event.mkdirDev, Event.createDevNull] ∧
    devNullWs "dev/null" = some "" :=
  c7_workspace_first wOk ⟨Event.authRequest, by decide, Or.inl rfl⟩

/-- C1 as stated is false on the code: in a world where every step
succeeds except that `unshare(CLONE_NEWPID)` returns -1 (failure), the
child command still runs; indeed the whole run is identical to the
all-success run, because the source discards the unshare return value. -/
theorem c1_counterexample :
    (∃ c, Event.execCommand c ∈ (runMain wUnshareFail).1) ∧
    wUnshareFail.unshareRet = -1 ∧
    runMain wUnshareFail = runMain wOk :=
  ⟨⟨builtCommand "cmd" ["a1"] wUnshareFail.env, by decide⟩, rfl, rfl⟩

/-- C1 amended: the command runs only when the filesystem-root change
(chroot and the following working-directory change) succeeded, and the
unshare call is made before the command; but the unshare return value is
discarded, so its success is not required for the command to run. -/
theorem c1_amended :
    ∀ (w : World) (c : Command),
      Event.execCommand c ∈ (runMain w).1 →
      w.chrootOk = Except.ok () ∧ w.setCwdOk = Except.ok () ∧
      Event.unshare ∈ (runMain w).1 := by
  intro w c h
  rcases runMain_reach w with ⟨t0, cmd, cargs, heq, hpre⟩ | hall
  · have hfst : (runMain w).1 =
        t0 ++ (chrootStep w cmd cargs w.chrootOk).1 := by rw [heq]
    rw [hfst] at h
    rcases List.mem_append.mp h with h | h
    · exact absurd (hpre _ h) (by simp [Event.isIsoOrExec])
    · obtain ⟨hc, hs, _, _⟩ := chrootStep_exec w cmd cargs c h
      refine ⟨hc, hs, ?_⟩
      rw [hfst]
      refine List.mem_append_right t0 ?_
      rcases chrootStep_cases w cmd cargs with h0 | h0 | h0 | ⟨c2, h0⟩
      · rw [h0] at h; simp at h
      · rw [h0] at h; simp at h
      · rw [h0] at h; simp at h
      · rw [h0]; simp
  · exact absurd (hall _ h) (by simp [Event.isIsoOrExec])

/-- Witness for the amended C1 at the all-success world. -/
theorem c1_amended_witness :
    wOk.chrootOk = Except.ok () ∧ wOk.setCwdOk = Except.ok () ∧
    Event.unshare ∈ (runMain wOk).1 :=
  c1_amended wOk (builtCommand "cmd" ["a1"] wOk.env) (by decide)

/-- C2: the launcher exit status is 0 when the child exits 0, the
child's exact code when it exits nonzero, and 1 when the code is
unavailable (e.g. the child was killed by a signal); whenever the child
ran, the launcher result is exactly `handleOutput` of the child status;
and every abort before the child runs is an `errExit`, which exits with
code 1 (nonzero) carrying an error message. -/
theorem c2_exit_status :
    (handleOutput (some 0) = MainResult.exit 0) ∧
    (∀ c : Int, c ≠ 0 → handleOutput (some c) = MainResult.exit c) ∧
    (handleOutput none = MainResult.exit 1) ∧
    (∀ (w : World) (m : String), (runMain w).2 = MainResult.errExit m →
      ((runMain w).2).code = 1) ∧
    (∀ (w : World) (c : Command) (status : Option Int),
      Event.execCommand c ∈ (runMain w).1 →
      w.runOutput c = Except.ok status →
      (runMain w).2 = handleOutput status) := by
  refine ⟨rfl, ?_, rfl, ?_, ?_⟩
  · intro c hc
    simp [handleOutput, hc]
  · intro w m hm
    rw [hm]
    rfl
  · intro w c status h hro
    rcases runMain_reach w with ⟨t0, cmd, cargs, heq, hpre⟩ | hall
    · have hfst : (runMain w).1 =
          t0 ++ (chrootStep w cmd cargs w.chrootOk).1 := by rw [heq]
      have hsnd : (runMain w).2 =
          (chrootStep w cmd cargs w.chrootOk).2 := by rw [heq]
      rw [hfst] at h
      rcases List.mem_append.mp h with h | h
      · exact absurd (hpre _ h) (by simp [Event.isIsoOrExec])
      · obtain ⟨_, _, _, st2, hro2, hres⟩ := chrootStep_exec w cmd cargs c h
        rw [hro] at hro2
        injection hro2 with hst
        rw [hsnd, hres, hst]
    · exact absurd (hall _ h) (by simp [Event.isIsoOrExec])

/-- Witness for C2: a nonzero child code is forwarded, a pipeline abort
exits 1, and the all-success run ends as `handleOutput (some 0)`. -/
theorem c2_witness :
    handleOutput (some 7) = MainResult.exit 7 ∧
    ((runMain { wOk with tempDir := Except.error "io" }).2).code = 1 ∧
    (runMain wOk).2 = handleOutput (some 0) :=
  ⟨c2_exit_status.2.1 7 (by decide),
   c2_exit_status.2.2.2.1 { wOk with tempDir := Except.error "io" } "io" rfl,
   c2_exit_status.2.2.2.2 wOk (builtCommand "cmd" ["a1"] wOk.env) (some 0)
     (by decide) rfl⟩

/-- C6: whenever unshare occurs, the trace contains the contiguous block
chroot, set-current-dir, unshare — the root change strictly before the
PID-namespace isolation — with no layer extraction after the block; and
whenever chroot occurs, no layer extraction happens after it (so both
isolation steps come only after all extraction). -/
theorem c6_isolation_order :
    ∀ w : World,
      (Event.chroot ∈ (runMain w).1 →
        ∃ t1 t2, (runMain w).1 = t1 ++ Event.chroot :: t2 ∧
          ∀ d, Event.extractLayer d ∉ Event.chroot :: t2) ∧
      (Event.unshare ∈ (runMain w).1 →
        ∃ t1 t2, (runMain w).1 =
          t1 ++ Event.chroot :: Event.setCurrentDir :: Event.unshare :: t2 ∧
          ∀ d, Event.extractLayer d ∉ t2) := by
  intro w
  rcases runMain_reach w with ⟨t0, cmd, cargs, heq, hpre⟩ | hall
  · have hfst : (runMain w).1 =
        t0 ++ (chrootStep w cmd cargs w.chrootOk).1 := by rw [heq]
    rcases chrootStep_cases w cmd cargs with h0 | h0 | h0 | ⟨c2, h0⟩
    · constructor
      · intro _
        refine ⟨t0, [], ?_, by simp⟩
        rw [hfst, h0]
      · intro hu
        rw [hfst, h0] at hu
        rcases List.mem_append.mp hu with hu | hu
        · exact absurd (hpre _ hu) (by simp [Event.isIsoOrExec])
        · simp at hu
    · constructor
      · intro _
        refine ⟨t0, [Event.setCurrentDir], ?_, by simp⟩
        rw [hfst, h0]
      · intro hu
        rw [hfst, h0] at hu
        rcases List.mem_append.mp hu with hu | hu
        · exact absurd (hpre _ hu) (by simp [Event.isIsoOrExec])
        · simp at hu
    · constructor
      · intro _
        refine ⟨t0, [Event.setCurrentDir, Event.unshare], ?_, by simp⟩
        rw [hfst, h0]
      · intro _
        refine ⟨t0, [], ?_, by simp⟩
        rw [hfst, h0]
    · constructor
      · intro _
        refine ⟨t0, [Event.setCurrentDir, Event.unshare,
          Event.execCommand c2], ?_, by simp⟩
        rw [hfst, h0]
      · intro _
        refine ⟨t0, [Event.execCommand c2], ?_, by simp⟩
        rw [hfst, h0]
  · constructor
    · intro hm
      exact absurd (hall _ hm) (by simp [Event.isIsoOrExec])
    · intro hm
      exact absurd (hall _ hm) (by simp [Event.isIsoOrExec])

/-- Witness for C6 at the all-success world, where unshare occurs. -/
theorem c6_witness :
    ∃ t1 t2, (runMain wOk).1 =
      t1 ++ Event.chroot :: Event.setCurrentDir :: Event.unshare :: t2 ∧
      ∀ d, Event.extractLayer d ∉ t2 :=
  (c6_isolation_order wOk).2 (by decide)

/-- C8: whenever the command is launched, its environment is empty, and
therefore the child-visible environment is the same (empty) for any two
launcher environments: no launcher environment variable flows to the
child. -/
theorem c8_env_cleared :
    (∀ (w : World) (c : Command),
      Event.execCommand c ∈ (runMain w).1 → c.env = []) ∧
    (∀ (w1 w2 : World) (c1 c2 : Command),
      Event.execCommand c1 ∈ (runMain w1).1 →
      Event.execCommand c2 ∈ (runMain w2).1 → c1.env = c2.env) := by
  have hmain : ∀ (w : World) (c : Command),
      Event.execCommand c ∈ (runMain w).1 → c.env = [] := by
    intro w c h
    rcases runMain_reach w with ⟨t0, cmd, cargs, heq, hpre⟩ | hall
    · have hfst : (runMain w).1 =
          t0 ++ (chrootStep w cmd cargs w.chrootOk).1 := by rw [heq]
      rw [hfst] at h
      rcases List.mem_append.mp h with h | h
      · exact absurd (hpre _ h) (by simp [Event.isIsoOrExec])
      · obtain ⟨_, _, hc2, _⟩ := chrootStep_exec w cmd cargs c h
        rw [hc2]
        rfl
    · exact absurd (hall _ h) (by simp [Event.isIsoOrExec])
  exact ⟨hmain, fun w1 w2 c1 c2 h1 h2 =>
    (hmain w1 c1 h1).trans (hmain w2 c2 h2).symm⟩

/-- Witness for C8 at two worlds with different launcher environments. -/
theorem c8_witness :
    (builtCommand "cmd" ["a1"] wOk.env).env = [] ∧
    (builtCommand "cmd" ["a1"] wOk.env).env =
      (builtCommand "cmd" ["a1"] wEnvB.env).env :=
  ⟨c8_env_cleared.1 wOk (builtCommand "cmd" ["a1"] wOk.env) (by decide),
   c8_env_cleared.2 wOk wEnvB (builtCommand "cmd" ["a1"] wOk.env)
     (builtCommand "cmd" ["a1"] wEnvB.env) (by decide) (by decide)⟩
